import Mathlib

/-!
Verification development for the type model and type-checking core of a
gradually-typed Lua dialect (tlua-proto).

The C++ sources are shallowly embedded:
  - src/type.h, src/type.cpp: the Type hierarchy (here the inductive Ty),
    isSameType, isSubtype, and the TypeFactory construction functions.
    Pointer identity of the primitive singletons coincides with kind
    equality, so the embedding compares primitives by constructor.
    The arena ownership of composite types is erased: construction
    returns the value itself.
  - src/environment.h, src/environment.cpp: Environment as a stack of
    scopes, each scope an association list standing for std::map
    (unique keys, insert-or-overwrite, ordered by key).
  - src/typechecker.cpp: the expression-checking pass, embedded as a
    function from an environment and an expression to Except of an
    error or the inferred type.  The C++ mutates expr.type and throws
    TypeCheckError; the embedding returns the type or the error.
  - unifyTypes is declared in src/type.h and called from
    src/typechecker.cpp but its definition is not part of the sources;
    it is modelled from the spec below.

Error messages are modelled verbatim where the C++ message is a constant;
where the C++ formats a type into the message, only the constant message
prefix is kept, and apostrophes around interpolated names are dropped.
-/

/-- TypeKind from src/type.h. -/
inductive TypeKind where
  | Number
  | String
  | Boolean
  | Nil
  | Unknown
  | Any
  | Array
  | Table
  | Record
  | Function
  | Union
deriving DecidableEq, Repr

/-- The Type class hierarchy from src/type.h, as one inductive.
BasicType instances (the six primitive and gradual singletons) are the
six nullary constructors; ArrayType, TableType, RecordType, FunctionType
and UnionType carry their payloads.  Table fields are an association
list of name and type, standing for std::map. -/
inductive Ty where
  | Number
  | String
  | Boolean
  | Nil
  | Unknown
  | Any
  | Array (elementType : Ty)
  | Table (fields : List (String × Ty))
  | Record (keyType valueType : Ty)
  | Function (paramTypes : List Ty) (returnType : Ty)
  | Union (types : List Ty)
deriving Repr

/-- Type::getKind from src/type.h. -/
def Ty.kind : Ty → TypeKind
  | .Number => .Number
  | .String => .String
  | .Boolean => .Boolean
  | .Nil => .Nil
  | .Unknown => .Unknown
  | .Any => .Any
  | .Array _ => .Array
  | .Table _ => .Table
  | .Record _ _ => .Record
  | .Function _ _ => .Function
  | .Union _ => .Union

mutual

/-- isSameType from src/type.cpp.  The pointer fast path and the
primitive singleton comparison both collapse to kind equality for
primitives.  The Function case compares parameter lists pairwise in
order (the C++ checks the sizes first and then loops; listSame returns
false on a length mismatch, which is the same predicate).  The Union
and Table cases are the size check followed by the order-independent
membership loops of the C++. -/
def isSameType : Ty → Ty → Bool
  | .Number, .Number => true
  | .String, .String => true
  | .Boolean, .Boolean => true
  | .Nil, .Nil => true
  | .Unknown, .Unknown => true
  | .Any, .Any => true
  | .Array e1, .Array e2 => isSameType e1 e2
  | .Function p1 r1, .Function p2 r2 => listSame p1 p2 && isSameType r1 r2
  | .Union t1, .Union t2 => t1.length == t2.length && allIn t1 t2
  | .Table f1, .Table f2 => f1.length == f2.length && fieldsIn f1 f2
  | .Record k1 v1, .Record k2 v2 => isSameType k1 k2 && isSameType v1 v2
  | _, _ => false
termination_by a b => sizeOf a + sizeOf b

/-- Pairwise comparison of the parameter lists in the Function case of
isSameType (src/type.cpp, the size check plus the indexed loop). -/
def listSame : List Ty → List Ty → Bool
  | [], [] => true
  | a :: as, b :: bs => isSameType a b && listSame as bs
  | _, _ => false
termination_by l1 l2 => sizeOf l1 + sizeOf l2

/-- The inner loop of the Union case of isSameType: is a structurally
equal to some element of the list. -/
def memberIn : Ty → List Ty → Bool
  | _, [] => false
  | a, b :: bs => isSameType a b || memberIn a bs
termination_by a l => sizeOf a + sizeOf l

/-- The outer loop of the Union case of isSameType: every element of the
first list is found in the second. -/
def allIn : List Ty → List Ty → Bool
  | [], _ => true
  | a :: as, bs => memberIn a bs && allIn as bs
termination_by l1 l2 => sizeOf l1 + sizeOf l2

/-- The inner loop of the Table case of isSameType: a field with the
same name and structurally equal type exists in the list. -/
def fieldIn : String × Ty → List (String × Ty) → Bool
  | _, [] => false
  | (n, t), (m, u) :: gs => (n == m && isSameType t u) || fieldIn (n, t) gs
termination_by f l => sizeOf f + sizeOf l

/-- The outer loop of the Table case of isSameType. -/
def fieldsIn : List (String × Ty) → List (String × Ty) → Bool
  | [], _ => true
  | f :: fs, gs => fieldIn f gs && fieldsIn fs gs
termination_by l1 l2 => sizeOf l1 + sizeOf l2

end

mutual

/-- isSubtype from src/type.cpp: reflexivity through isSameType, Any as
top, Unknown as bottom, then the Union supertype rule (any member
accepts) and the Union subtype rule (all members must be accepted). -/
def isSubtype (sub : Ty) (super : Ty) : Bool :=
  if isSameType sub super then true
  else if super.kind == TypeKind.Any then true
  else if sub.kind == TypeKind.Unknown then true
  else
    match super with
    | .Union ms => anySuperMember sub ms
    | s =>
      match sub with
      | .Union ms => allSubMembers ms s
      | _ => false
termination_by sizeOf sub + sizeOf super

/-- The loop over the members of a Union supertype in isSubtype. -/
def anySuperMember (sub : Ty) : List Ty → Bool
  | [] => false
  | m :: ms => isSubtype sub m || anySuperMember sub ms
termination_by l => sizeOf sub + sizeOf l

/-- The loop over the members of a Union subtype in isSubtype. -/
def allSubMembers : List Ty → Ty → Bool
  | [], _ => true
  | m :: ms, super => isSubtype m super && allSubMembers ms super
termination_by l super => sizeOf l + sizeOf super

end

/-- TypeFactory::createFunctionType from src/type.cpp (arena allocation
erased: the constructed value is returned directly). -/
def createFunctionType (paramTypes : List Ty) (returnType : Ty) : Ty :=
  .Function paramTypes returnType

/-- TypeFactory::createArrayType from src/type.cpp. -/
def createArrayType (elementType : Ty) : Ty := .Array elementType

/-- TypeFactory::createTableType from src/type.cpp. -/
def createTableType (fields : List (String × Ty)) : Ty := .Table fields

/-- TypeFactory::createRecordType from src/type.cpp. -/
def createRecordType (keyType valueType : Ty) : Ty := .Record keyType valueType

/-- TypeFactory::createUnionType from src/type.cpp: if Any is among the
members the whole union is Any; otherwise a UnionType holding exactly
the given member list is allocated.  The source performs no
deduplication and no flattening here. -/
def createUnionType (types_list : List Ty) : Ty :=
  if types_list.any (fun t => t.kind == TypeKind.Any) then Ty.Any
  else Ty.Union types_list

mutual

/-- Modelled from the spec: the flattening step of unifyTypes (the
definition of unifyTypes is missing from the sources; src/type.h only
declares it).  A Union contributes its members, recursively flattened;
any other type contributes itself. -/
def flattenMembers : Ty → List Ty
  | .Union ms => flattenAll ms
  | t => [t]
termination_by t => sizeOf t

/-- Modelled from the spec: flattening of a list of types, elementwise. -/
def flattenAll : List Ty → List Ty
  | [] => []
  | t :: ts => flattenMembers t ++ flattenAll ts
termination_by l => sizeOf l

end

/-- Modelled from the spec: one deduplication step, keeping the first
occurrence of each structural-equality class. -/
def addDistinct (acc : List Ty) (t : Ty) : List Ty :=
  if acc.any (fun u => isSameType u t) then acc else acc ++ [t]

/-- Modelled from the spec: the structurally distinct types of a list,
in order of first occurrence. -/
def distinctTypes (ts : List Ty) : List Ty := ts.foldl addDistinct []

/-- Modelled from the spec: unifyTypes, whose definition is missing from
the sources (src/type.h declares it and src/typechecker.cpp calls it on
the non-empty element list of an array literal).  Given a non-empty
sequence of types it returns the single shared type if all are
structurally equal, and otherwise a Union of the distinct types,
deduplicated, flattened, with the Any-absorption rule applied through
createUnionType.  On the empty list, which the checker never produces,
it returns Unknown. -/
def unifyTypes : List Ty → Ty
  | [] => Ty.Unknown
  | t :: ts =>
    if ts.all (fun u => isSameType t u) then t
    else createUnionType (distinctTypes (flattenAll (t :: ts)))

/-- One scope of the Environment (src/environment.h): std::map from
name to type, embedded as a key-ordered association list with unique
keys. -/
abbrev Scope := List (String × Ty)

/-- std::map insertion map[name] = t: overwrite the entry with that key,
or insert keeping the keys ordered. -/
def mapInsert : Scope → String → Ty → Scope
  | [], name, t => [(name, t)]
  | (k, v) :: rest, name, t =>
    if name == k then (name, t) :: rest
    else if name < k then (name, t) :: (k, v) :: rest
    else (k, v) :: mapInsert rest name t

/-- std::map find, returning the mapped type when the key is present. -/
def mapFind (s : Scope) (name : String) : Option Ty :=
  match s.find? (fun kv => kv.1 == name) with
  | some kv => some kv.2
  | none => none

/-- Environment from src/environment.h: a stack of scopes, the first
entry the global scope and the last entry the innermost scope. -/
abbrev Environment := List Scope

/-- Environment::pushScope from src/environment.cpp: emplace a fresh
scope at the back. -/
def Environment.pushScope (env : Environment) : Environment := env ++ [[]]

/-- Environment::popScope from src/environment.cpp: remove the last
scope when one exists, and do nothing on an empty stack. -/
def Environment.popScope (env : Environment) : Environment :=
  if env.isEmpty then env else env.dropLast

/-- Environment::define from src/environment.cpp: with an empty stack a
scope is first created implicitly, then the binding is written into the
innermost (last) scope with std::map insert-or-overwrite.  The C++
mutates scopes.back(); the recursion here rebuilds the stack with the
same last scope updated. -/
def Environment.define : Environment → String → Ty → Environment
  | [], name, t => [mapInsert [] name t]
  | [s], name, t => [mapInsert s name t]
  | s :: rest, name, t => s :: Environment.define rest name t

/-- Environment::lookup from src/environment.cpp: search the scopes
from innermost (back) to outermost (front); the first scope holding the
name wins; none when the name is unbound everywhere. -/
def Environment.lookup : Environment → String → Option Ty
  | [], _ => none
  | s :: rest, name =>
    match Environment.lookup rest name with
    | some t => some t
    | none => mapFind s name

/-- TokenKind from src/lexer.h (plus Length, which the checker uses for
the unary length operator). -/
inductive TokenKind where
  | Identifier | Number | String
  | Local | Function | End | Return | If | Then | Else | ElseIf
  | LParen | RParen | LBrace | RBrace
  | Colon | Comma | Assign
  | Plus | Minus | Star | Slash
  | Equal | EqualEqual | NotEqual | Less | Greater
  | LessEqual | GreaterEqual
  | And | Or | Not
  | Concat
  | MemberAccess | MethodAccess
  | Length
  | Eof
deriving DecidableEq, Repr

/-- The expression nodes of the AST (src/ast.h).  Every node carries a
mutable type slot in the C++; the embedding instead returns the
inferred type from the checking function.  The numeric payload of
NumberExpr is a double the checker never reads; it is modelled as a
natural number. -/
inductive Expr where
  | StringExpr (val : String)
  | NumberExpr (val : Nat)
  | NilExpr
  | BooleanExpr (val : Bool)
  | TableExpr (arrayPart : List Expr) (mapPart : List (String × Expr))
  | VarExpr (name : String)
  | UnaryOpExpr (op : TokenKind) (right : Expr)
  | BinOpExpr (op : TokenKind) (left right : Expr)
  | IndexExpr (object index : Expr)
  | FunCallExpr (callee : Expr) (args : List Expr)

/-- TypeCheckError from src/typechecker.h, carrying the message. -/
structure TypeCheckError where
  message : String
deriving DecidableEq, Repr

/-- Helper isAny from the anonymous namespace of src/typechecker.cpp. -/
def isAny (t : Ty) : Bool := t.kind == TypeKind.Any

/-- Helper isNumber from src/typechecker.cpp: Any, or pointer equality
with the Number singleton, which in the embedding is kind equality. -/
def isNumber (t : Ty) : Bool := isAny t || t.kind == TypeKind.Number

/-- Helper isString from src/typechecker.cpp. -/
def isString (t : Ty) : Bool := isAny t || t.kind == TypeKind.String

mutual

/-- The expression cases of TypeChecker::visit from src/typechecker.cpp,
one match arm per visit overload, in an environment.  The C++ writes the
inferred type into the node and throws TypeCheckError on a violation;
the embedding returns the type or the error. -/
def checkExpr (env : Environment) : Expr → Except TypeCheckError Ty
  | .StringExpr _ => .ok .String
  | .NumberExpr _ => .ok .Number
  | .NilExpr => .ok .Nil
  | .BooleanExpr _ => .ok .Boolean
  | .TableExpr arrayPart mapPart =>
    if !arrayPart.isEmpty && !mapPart.isEmpty then
      .error ⟨"Type error: mixed table literals are not allowed. Use either array syntax \x7b1, 2, 3\x7d or record syntax \x7ba = 1, b = 2\x7d"⟩
    else if !arrayPart.isEmpty then
      match checkList env arrayPart with
      | .error e => .error e
      | .ok elementTypes => .ok (createArrayType (unifyTypes elementTypes))
    else if !mapPart.isEmpty then
      match checkFields env mapPart with
      | .error e => .error e
      | .ok fields =>
        .ok (createTableType (fields.foldl (fun m kv => mapInsert m kv.1 kv.2) []))
    else .ok (createTableType [])
  | .VarExpr name =>
    match Environment.lookup env name with
    | none => .ok .Any
    | some t => .ok t
  | .UnaryOpExpr op right =>
    match checkExpr env right with
    | .error e => .error e
    | .ok rightType =>
      match op with
      | .Minus =>
        if !isNumber rightType then
          .error ⟨"Type error: unary minus requires a number type"⟩
        else .ok rightType
      | .Not => .ok .Boolean
      | .Length =>
        if rightType.kind != TypeKind.Array && !isAny rightType then
          .error ⟨"Type error: length operator requires array type, got "⟩
        else .ok .Number
      | _ => .error ⟨"Unknown unary operator in type checker"⟩
  | .BinOpExpr op left right =>
    match checkExpr env left with
    | .error e => .error e
    | .ok leftType =>
      match checkExpr env right with
      | .error e => .error e
      | .ok rightType =>
        match op with
        | .Plus | .Minus | .Star | .Slash =>
          if !isNumber leftType || !isNumber rightType then
            .error ⟨"Type error: arithmetic operations require number types"⟩
          else .ok .Number
        | .Assign => .ok rightType
        | .Equal | .NotEqual => .ok .Boolean
        | .Less | .Greater | .LessEqual | .GreaterEqual =>
          if (isNumber leftType && isNumber rightType) ||
             (isString leftType && isString rightType) then .ok .Boolean
          else .error ⟨"Type error: comparison requires number or string types"⟩
        | .And | .Or => .ok (createUnionType [leftType, rightType])
        | .Concat =>
          if isString leftType && isString rightType then .ok .String
          else .error ⟨"Type error: concat requires string or number types"⟩
        | .MemberAccess =>
          if leftType.kind == TypeKind.Any then .ok .Any
          else
            match leftType with
            | .Table fields =>
              match right with
              | .VarExpr name =>
                match mapFind fields name with
                | some fieldType => .ok fieldType
                | none => .error ⟨"Type error: field does not exist on type "⟩
              | _ => .error ⟨"Type error: member access requires an identifier"⟩
            | _ => .error ⟨"Type error: cannot access member on non-table type "⟩
        | .MethodAccess => .ok .Any
        | _ => .error ⟨"Unknown binary operator in type checker"⟩
  | .IndexExpr object index =>
    match checkExpr env object with
    | .error e => .error e
    | .ok objType =>
      match checkExpr env index with
      | .error e => .error e
      | .ok indexType =>
        if objType.kind == TypeKind.Any then .ok .Any
        else
          match objType with
          | .Array elementType =>
            if !isNumber indexType && !isAny indexType then
              .error ⟨"Type error: array index must be number, got "⟩
            else .ok elementType
          | .Table _ => .ok .Any
          | _ => .error ⟨"Type error: cannot index non-array/table type "⟩
  | .FunCallExpr callee args =>
    match checkExpr env callee with
    | .error e => .error e
    | .ok calleeType =>
      if calleeType.kind == TypeKind.Any then .ok .Any
      else
        match calleeType with
        | .Function paramTypes returnType =>
          if paramTypes.length != args.length then
            .error ⟨"Type error: function called with incorrect number of arguments"⟩
          else
            match checkList env args with
            | .error e => .error e
            | .ok argTypes =>
              if (argTypes.zip paramTypes).all (fun p => isSubtype p.1 p.2) then
                .ok returnType
              else .error ⟨"Type error: function argument type mismatch"⟩
        | _ => .error ⟨"Type error: trying to call a non-function type"⟩
termination_by e => sizeOf e

/-- Checking of an expression list in order, as the loops over the array
part of a table literal and over call arguments do, stopping at the
first error. -/
def checkList (env : Environment) : List Expr → Except TypeCheckError (List Ty)
  | [] => .ok []
  | e :: es =>
    match checkExpr env e with
    | .error err => .error err
    | .ok t =>
      match checkList env es with
      | .error err => .error err
      | .ok ts => .ok (t :: ts)
termination_by l => sizeOf l

/-- Checking of the keyed part of a table literal in order, pairing each
key with the inferred type of its value, stopping at the first error. -/
def checkFields (env : Environment) : List (String × Expr) → Except TypeCheckError (List (String × Ty))
  | [] => .ok []
  | (k, e) :: rest =>
    match checkExpr env e with
    | .error err => .error err
    | .ok t =>
      match checkFields env rest with
      | .error err => .error err
      | .ok ts => .ok ((k, t) :: ts)
termination_by l => sizeOf l

end

/-! Helper lemmas characterizing the loops of the relations. -/

theorem memberIn_eq_any (a : Ty) (l : List Ty) :
    memberIn a l = l.any (fun b => isSameType a b) := by
  induction l with
  | nil => simp [memberIn]
  | cons b bs ih => simp [memberIn, ih]

theorem allIn_eq_all (l1 l2 : List Ty) :
    allIn l1 l2 = l1.all (fun a => memberIn a l2) := by
  induction l1 with
  | nil => simp [allIn]
  | cons a as ih => simp [allIn, ih]

theorem fieldIn_eq_any (f : String × Ty) (gs : List (String × Ty)) :
    fieldIn f gs = gs.any (fun g => f.1 == g.1 && isSameType f.2 g.2) := by
  obtain ⟨n, t⟩ := f
  induction gs with
  | nil => simp [fieldIn]
  | cons g gs ih =>
    obtain ⟨m, u⟩ := g
    simp [fieldIn, ih]

theorem fieldsIn_eq_all (fs gs : List (String × Ty)) :
    fieldsIn fs gs = fs.all (fun f => fieldIn f gs) := by
  induction fs with
  | nil => simp [fieldsIn]
  | cons f fs ih => simp [fieldsIn, ih]

theorem anySuperMember_eq (sub : Ty) (l : List Ty) :
    anySuperMember sub l = l.any (fun m => isSubtype sub m) := by
  induction l with
  | nil => simp [anySuperMember]
  | cons m ms ih => simp [anySuperMember, ih]

theorem allSubMembers_eq (l : List Ty) (super : Ty) :
    allSubMembers l super = l.all (fun m => isSubtype m super) := by
  induction l with
  | nil => simp [allSubMembers]
  | cons m ms ih => simp [allSubMembers, ih]

/-! Helper lemmas about kinds and the basic subtype facts. -/

@[simp] theorem kind_Number : Ty.Number.kind = TypeKind.Number := rfl
@[simp] theorem kind_String : Ty.String.kind = TypeKind.String := rfl
@[simp] theorem kind_Boolean : Ty.Boolean.kind = TypeKind.Boolean := rfl
@[simp] theorem kind_Nil : Ty.Nil.kind = TypeKind.Nil := rfl
@[simp] theorem kind_Unknown : Ty.Unknown.kind = TypeKind.Unknown := rfl
@[simp] theorem kind_Any : Ty.Any.kind = TypeKind.Any := rfl
@[simp] theorem kind_Array (e : Ty) : (Ty.Array e).kind = TypeKind.Array := rfl
@[simp] theorem kind_Table (fs : List (String × Ty)) : (Ty.Table fs).kind = TypeKind.Table := rfl
@[simp] theorem kind_Record (k v : Ty) : (Ty.Record k v).kind = TypeKind.Record := rfl
@[simp] theorem kind_Function (ps : List Ty) (r : Ty) : (Ty.Function ps r).kind = TypeKind.Function := rfl
@[simp] theorem kind_Union (ms : List Ty) : (Ty.Union ms).kind = TypeKind.Union := rfl

theorem kind_eq_unknown {t : Ty} (h : t.kind = TypeKind.Unknown) : t = Ty.Unknown := by
  cases t <;> simp_all

theorem kind_eq_any {t : Ty} (h : t.kind = TypeKind.Any) : t = Ty.Any := by
  cases t <;> simp_all

theorem isSubtype_any_right (t : Ty) : isSubtype t Ty.Any = true := by
  rw [isSubtype.eq_def]
  simp

theorem isSubtype_unknown_left (t : Ty) : isSubtype Ty.Unknown t = true := by
  rw [isSubtype.eq_def]
  simp

theorem isSubtype_union_super (sub : Ty) (ms : List Ty)
    (h1 : isSameType sub (Ty.Union ms) = false)
    (h3 : sub.kind ≠ TypeKind.Unknown) :
    isSubtype sub (Ty.Union ms) = anySuperMember sub ms := by
  rw [isSubtype.eq_def]
  simp [h1, h3]

theorem isSubtype_union_sub (ms : List Ty) (super : Ty)
    (h1 : isSameType (Ty.Union ms) super = false)
    (h2 : super.kind ≠ TypeKind.Any)
    (h4 : super.kind ≠ TypeKind.Union) :
    isSubtype (Ty.Union ms) super = allSubMembers ms super := by
  cases super <;> rw [isSubtype.eq_def] <;> simp_all

/-- C5: for every pair of types that are not structurally equal and whose
unions are well-formed (non-empty member lists, as every union the
program builds has at least the two operand types): a Union supertype
accepts a subtype exactly when some member accepts it, and a Union
subtype is accepted by a non-Union supertype exactly when every member
is accepted. -/
theorem union_subtype_spec :
    (∀ (sub : Ty) (ms : List Ty), ms ≠ [] →
      isSameType sub (Ty.Union ms) = false →
      (isSubtype sub (Ty.Union ms) = true ↔ ∃ m ∈ ms, isSubtype sub m = true)) ∧
    (∀ (ms : List Ty) (super : Ty), super.kind ≠ TypeKind.Union →
      isSameType (Ty.Union ms) super = false →
      (isSubtype (Ty.Union ms) super = true ↔ ∀ m ∈ ms, isSubtype m super = true)) := by
  constructor
  · intro sub ms hne h1
    by_cases hu : sub.kind = TypeKind.Unknown
    · have hsub := kind_eq_unknown hu
      subst hsub
      constructor
      · intro _
        match ms, hne with
        | m :: ms, _ => exact ⟨m, List.mem_cons_self m ms, isSubtype_unknown_left m⟩
      · intro _
        exact isSubtype_unknown_left _
    · rw [isSubtype_union_super sub ms h1 hu, anySuperMember_eq]
      simp
  · intro ms super h4 h1
    by_cases ha : super.kind = TypeKind.Any
    · have hsup := kind_eq_any ha
      subst hsup
      constructor
      · intro _ m _
        exact isSubtype_any_right m
      · intro _
        rw [isSubtype.eq_def]
        simp
    · rw [isSubtype_union_sub ms super h1 ha h4, allSubMembers_eq]
      simp

/-- Witness for union_subtype_spec at concrete inputs. -/
theorem union_subtype_spec_witness :
    (isSubtype Ty.Boolean (Ty.Union [Ty.Number, Ty.String]) = true ↔
      ∃ m ∈ [Ty.Number, Ty.String], isSubtype Ty.Boolean m = true) ∧
    (isSubtype (Ty.Union [Ty.Number, Ty.String]) Ty.Number = true ↔
      ∀ m ∈ [Ty.Number, Ty.String], isSubtype m Ty.Number = true) :=
  ⟨union_subtype_spec.1 Ty.Boolean [Ty.Number, Ty.String] (by simp) (by simp [isSameType]),
   union_subtype_spec.2 [Ty.Number, Ty.String] Ty.Number (by simp) (by simp [isSameType])⟩

/-! Permutation invariance helpers for the order-independent loops. -/

theorem perm_any_eq {α : Type} {l1 l2 : List α} (p : α → Bool) (h : l1.Perm l2) :
    l1.any p = l2.any p := by
  apply Bool.eq_iff_iff.mpr
  simp only [List.any_eq_true]
  constructor
  · rintro ⟨a, ha, hp⟩
    exact ⟨a, h.mem_iff.mp ha, hp⟩
  · rintro ⟨a, ha, hp⟩
    exact ⟨a, h.mem_iff.mpr ha, hp⟩

theorem perm_all_eq {α : Type} {l1 l2 : List α} (p : α → Bool) (h : l1.Perm l2) :
    l1.all p = l2.all p := by
  apply Bool.eq_iff_iff.mpr
  simp only [List.all_eq_true]
  exact ⟨fun hall a ha => hall a (h.mem_iff.mpr ha), fun hall a ha => hall a (h.mem_iff.mp ha)⟩

theorem list_all_congr {α : Type} {l : List α} {p q : α → Bool}
    (h : ∀ a ∈ l, p a = q a) : l.all p = l.all q := by
  induction l with
  | nil => rfl
  | cons a as ih =>
    simp only [List.all_cons, h a (by simp), ih (fun b hb => h b (by simp [hb]))]

theorem isSameType_table_eq (f1 f2 : List (String × Ty)) :
    isSameType (Ty.Table f1) (Ty.Table f2) = (f1.length == f2.length && fieldsIn f1 f2) := by
  simp [isSameType]

/-- C6: two Table types are structurally equal exactly when they have the
same number of fields and every field of the first has an equally named
field of the second with structurally equal value type; the comparison
is invariant under reordering of either field list; and the one-field
table x: Number is not same-type as the two-field table with x: Number
and y: String. -/
theorem table_sameType_spec :
    (∀ f1 f2 : List (String × Ty),
      isSameType (Ty.Table f1) (Ty.Table f2) = true ↔
        (f1.length = f2.length ∧
         ∀ p ∈ f1, ∃ q ∈ f2, p.1 = q.1 ∧ isSameType p.2 q.2 = true)) ∧
    (∀ f1 f2 g1 g2 : List (String × Ty), f1.Perm g1 → f2.Perm g2 →
      isSameType (Ty.Table f1) (Ty.Table f2) = isSameType (Ty.Table g1) (Ty.Table g2)) ∧
    isSameType (Ty.Table [("x", Ty.Number)])
               (Ty.Table [("x", Ty.Number), ("y", Ty.String)]) = false := by
  refine ⟨?_, ?_, by simp [isSameType]⟩
  · intro f1 f2
    rw [isSameType_table_eq, fieldsIn_eq_all]
    simp only [Bool.and_eq_true, beq_iff_eq, List.all_eq_true]
    constructor
    · rintro ⟨hlen, hall⟩
      refine ⟨hlen, ?_⟩
      intro p hp
      have hfield := hall p hp
      rw [fieldIn_eq_any] at hfield
      simp only [List.any_eq_true, Bool.and_eq_true, beq_iff_eq] at hfield
      obtain ⟨q, hq, hname, hty⟩ := hfield
      exact ⟨q, hq, hname, hty⟩
    · rintro ⟨hlen, hall⟩
      refine ⟨hlen, ?_⟩
      intro p hp
      rw [fieldIn_eq_any]
      simp only [List.any_eq_true, Bool.and_eq_true, beq_iff_eq]
      obtain ⟨q, hq, hname, hty⟩ := hall p hp
      exact ⟨q, hq, hname, hty⟩
  · intro f1 f2 g1 g2 h1 h2
    rw [isSameType_table_eq, isSameType_table_eq, h1.length_eq, h2.length_eq]
    congr 1
    rw [fieldsIn_eq_all, fieldsIn_eq_all, perm_all_eq _ h1]
    apply list_all_congr
    intro p _
    rw [fieldIn_eq_any, fieldIn_eq_any]
    exact perm_any_eq _ h2

/-- Witness for table_sameType_spec at concrete inputs. -/
theorem table_sameType_spec_witness :
    isSameType (Ty.Table [("x", Ty.Number), ("y", Ty.String)])
               (Ty.Table [("x", Ty.Number), ("y", Ty.String)]) =
    isSameType (Ty.Table [("y", Ty.String), ("x", Ty.Number)])
               (Ty.Table [("y", Ty.String), ("x", Ty.Number)]) :=
  table_sameType_spec.2.1 _ _ _ _ (List.Perm.swap _ _ _) (List.Perm.swap _ _ _)

theorem lookup_append_inner (env : Environment) (inner : Scope) (name : String) (t : Ty)
    (h : mapFind inner name = some t) :
    Environment.lookup (env ++ [inner]) name = some t := by
  induction env with
  | nil => simp [Environment.lookup, h]
  | cons s rest ih => simp [Environment.lookup, ih]

/-- C7: a variable reference never raises an error; when the name is
unbound in every scope it gets the type Any, and when it is bound the
innermost binding wins. -/
theorem var_reference_spec :
    (∀ (env : Environment) (name : String),
      Environment.lookup env name = none →
      checkExpr env (.VarExpr name) = .ok Ty.Any) ∧
    (∀ (env : Environment) (name : String) (t : Ty),
      Environment.lookup env name = some t →
      checkExpr env (.VarExpr name) = .ok t) ∧
    (∀ (env : Environment) (inner : Scope) (name : String) (t : Ty),
      mapFind inner name = some t →
      checkExpr (env ++ [inner]) (.VarExpr name) = .ok t) ∧
    (∀ (env : Environment) (name : String),
      ∃ t, checkExpr env (.VarExpr name) = .ok t) := by
  refine ⟨?_, ?_, ?_, ?_⟩
  · intro env name h
    simp [checkExpr, h]
  · intro env name t h
    simp [checkExpr, h]
  · intro env inner name t h
    simp [checkExpr, lookup_append_inner env inner name t h]
  · intro env name
    cases h : Environment.lookup env name with
    | none => exact ⟨Ty.Any, by simp [checkExpr, h]⟩
    | some t => exact ⟨t, by simp [checkExpr, h]⟩

/-- Witness for var_reference_spec at concrete inputs. -/
theorem var_reference_spec_witness :
    checkExpr [] (.VarExpr "z") = .ok Ty.Any ∧
    checkExpr ([[("x", Ty.Number)]] ++ [[("x", Ty.String)]]) (.VarExpr "x") = .ok Ty.String :=
  ⟨var_reference_spec.1 [] "z" (by simp [Environment.lookup]),
   var_reference_spec.2.2.1 [[("x", Ty.Number)]] [("x", Ty.String)] "x" Ty.String
     (by simp [mapFind])⟩

/-- C9: a method-access expression is assigned the type Any regardless
of the types of its two operands, and the construct itself raises no
error. -/
theorem methodAccess_spec (env : Environment) (l r : Expr) (L R : Ty)
    (hl : checkExpr env l = .ok L) (hr : checkExpr env r = .ok R) :
    checkExpr env (.BinOpExpr TokenKind.MethodAccess l r) = .ok Ty.Any := by
  simp [checkExpr, hl, hr]

/-- Witness for methodAccess_spec at concrete inputs. -/
theorem methodAccess_spec_witness :
    checkExpr [] (.BinOpExpr TokenKind.MethodAccess (.NumberExpr 1) (.VarExpr "m")) = .ok Ty.Any :=
  methodAccess_spec [] (.NumberExpr 1) (.VarExpr "m") Ty.Number Ty.Any
    (by simp [checkExpr]) (by simp [checkExpr, Environment.lookup, mapFind])

/-- C10: the Environment operations are total: popScope on an empty
scope stack leaves it empty without error, and define on an empty stack
first creates a scope (exactly as pushScope would) and then records the
binding in it, after which lookup finds it. -/
theorem environment_total_spec :
    Environment.popScope ([] : Environment) = ([] : Environment) ∧
    (∀ (name : String) (t : Ty),
      Environment.define ([] : Environment) name t = [[(name, t)]] ∧
      Environment.define ([] : Environment) name t =
        Environment.define (Environment.pushScope ([] : Environment)) name t ∧
      Environment.lookup (Environment.define ([] : Environment) name t) name = some t) := by
  refine ⟨rfl, ?_⟩
  intro name t
  refine ⟨rfl, rfl, ?_⟩
  simp [Environment.define, Environment.lookup, mapInsert, mapFind]

theorem checkExpr_logical (env : Environment) (op : TokenKind)
    (hop : op = TokenKind.And ∨ op = TokenKind.Or)
    (l r : Expr) (L R : Ty)
    (hl : checkExpr env l = .ok L) (hr : checkExpr env r = .ok R) :
    checkExpr env (.BinOpExpr op l r) = .ok (createUnionType [L, R]) := by
  rcases hop with h | h <;> subst h <;> simp [checkExpr, hl, hr]

/-- C1 fails on the code: createUnionType performs neither deduplication
nor flattening, so a duplicated member list or a Union member survives
construction, and the and/or path of the checker produces such unions. -/
theorem union_invariant_counterexample :
    createUnionType [Ty.Number, Ty.Number] = Ty.Union [Ty.Number, Ty.Number] ∧
    isSameType Ty.Number Ty.Number = true ∧
    createUnionType [Ty.Union [Ty.Number, Ty.String], Ty.Boolean] =
      Ty.Union [Ty.Union [Ty.Number, Ty.String], Ty.Boolean] ∧
    (Ty.Union [Ty.Number, Ty.String]).kind = TypeKind.Union ∧
    checkExpr [] (.BinOpExpr TokenKind.And (.NumberExpr 1) (.NumberExpr 2)) =
      .ok (Ty.Union [Ty.Number, Ty.Number]) := by
  refine ⟨by simp [createUnionType], by simp [isSameType], by simp [createUnionType], rfl,
    by simp [checkExpr, createUnionType]⟩

/-- C1 amended: createUnionType collapses to the Any singleton when some
member has kind Any, and otherwise returns a Union whose member list is
exactly the input, with duplicates and nested unions preserved; the
checker assigns a logical and/or expression exactly this raw union of
the two operand types. -/
theorem createUnion_raw_spec :
    (∀ ts : List Ty, (∃ t ∈ ts, t.kind = TypeKind.Any) → createUnionType ts = Ty.Any) ∧
    (∀ ts : List Ty, (∀ t ∈ ts, t.kind ≠ TypeKind.Any) → createUnionType ts = Ty.Union ts) ∧
    (∀ (env : Environment) (l r : Expr) (L R : Ty),
      checkExpr env l = .ok L → checkExpr env r = .ok R →
      checkExpr env (.BinOpExpr TokenKind.And l r) = .ok (createUnionType [L, R]) ∧
      checkExpr env (.BinOpExpr TokenKind.Or l r) = .ok (createUnionType [L, R])) := by
  refine ⟨?_, ?_, ?_⟩
  · intro ts h
    have hany : ts.any (fun u => u.kind == TypeKind.Any) = true := by
      simp only [List.any_eq_true, beq_iff_eq]
      exact h
    simp [createUnionType, hany]
  · intro ts h
    unfold createUnionType
    rw [if_neg]
    simp only [List.any_eq_true, beq_iff_eq, not_exists]
    intro t hmem
    exact h t hmem.1 hmem.2
  · intro env l r L R hl hr
    exact ⟨checkExpr_logical env TokenKind.And (Or.inl rfl) l r L R hl hr,
           checkExpr_logical env TokenKind.Or (Or.inr rfl) l r L R hl hr⟩

/-- Witness for createUnion_raw_spec at concrete inputs. -/
theorem createUnion_raw_spec_witness :
    createUnionType [Ty.Number, Ty.String] = Ty.Union [Ty.Number, Ty.String] ∧
    createUnionType [Ty.Any, Ty.String] = Ty.Any :=
  ⟨createUnion_raw_spec.2.1 [Ty.Number, Ty.String] (by decide),
   createUnion_raw_spec.1 [Ty.Any, Ty.String] ⟨Ty.Any, by simp, rfl⟩⟩

/-- C2 fails on the code: the checker computes the and/or type with
createUnionType, not with unifyTypes, so structurally equal operand
types still produce a two-member union instead of the single type. -/
theorem andOr_unify_counterexample :
    checkExpr [] (.BinOpExpr TokenKind.And (.NumberExpr 1) (.NumberExpr 2)) =
      .ok (Ty.Union [Ty.Number, Ty.Number]) ∧
    unifyTypes [Ty.Number, Ty.Number] = Ty.Number ∧
    Ty.Union [Ty.Number, Ty.Number] ≠ Ty.Number ∧
    isSameType (Ty.Union [Ty.Number, Ty.Number]) Ty.Number = false := by
  refine ⟨by simp [checkExpr, createUnionType], by simp [unifyTypes, isSameType],
    by simp, by simp [isSameType]⟩

/-- C2 amended: the type the checker assigns to a logical and/or
expression with operand types L and R is createUnionType of L and R: Any
when either operand type has kind Any, and otherwise the raw two-member
union of L and R in operand order, even when L and R are structurally
equal. -/
theorem andOr_type_spec :
    ∀ (env : Environment) (op : TokenKind), op = TokenKind.And ∨ op = TokenKind.Or →
    ∀ (l r : Expr) (L R : Ty),
      checkExpr env l = .ok L → checkExpr env r = .ok R →
      checkExpr env (.BinOpExpr op l r) = .ok (createUnionType [L, R]) := by
  intro env op hop l r L R hl hr
  exact checkExpr_logical env op hop l r L R hl hr

/-- Witness for andOr_type_spec, mirroring the repository test for
true or 1. -/
theorem andOr_type_spec_witness :
    checkExpr [] (.BinOpExpr TokenKind.Or (.BooleanExpr true) (.NumberExpr 1)) =
      .ok (createUnionType [Ty.Boolean, Ty.Number]) :=
  andOr_type_spec [] TokenKind.Or (Or.inr rfl) (.BooleanExpr true) (.NumberExpr 1)
    Ty.Boolean Ty.Number (by simp [checkExpr]) (by simp [checkExpr])

/-- C8: a union constructed by createUnionType from a member list that
contains a type of kind Any is exactly the Any singleton. -/
theorem union_any_absorbs (ts : List Ty) (t : Ty) (hmem : t ∈ ts)
    (hk : t.kind = TypeKind.Any) : createUnionType ts = Ty.Any := by
  have hany : ts.any (fun u => u.kind == TypeKind.Any) = true := by
    simp only [List.any_eq_true, beq_iff_eq]
    exact ⟨t, hmem, hk⟩
  simp [createUnionType, hany]

/-- Witness for union_any_absorbs at a concrete input. -/
theorem union_any_absorbs_witness :
    createUnionType [Ty.Number, Ty.Any, Ty.String] = Ty.Any :=
  union_any_absorbs [Ty.Number, Ty.Any, Ty.String] Ty.Any (by simp) rfl

/-- C4: for a call expression, a callee of type Any short-circuits the
result to Any with no further checks; otherwise the callee must be a
Function (else a call-of-non-function error), the argument count must
equal the parameter count (else the arity error), every argument type
must be a subtype of its parameter type (else the argument type
mismatch error), and on success the result is the declared return
type. -/
theorem funcall_checking :
    (∀ (env : Environment) (callee : Expr) (args : List Expr) (C : Ty),
      checkExpr env callee = .ok C → C.kind = TypeKind.Any →
      checkExpr env (.FunCallExpr callee args) = .ok Ty.Any) ∧
    (∀ (env : Environment) (callee : Expr) (args : List Expr) (C : Ty),
      checkExpr env callee = .ok C → C.kind ≠ TypeKind.Any → C.kind ≠ TypeKind.Function →
      checkExpr env (.FunCallExpr callee args) =
        .error ⟨"Type error: trying to call a non-function type"⟩) ∧
    (∀ (env : Environment) (callee : Expr) (args : List Expr) (ps : List Ty) (r : Ty),
      checkExpr env callee = .ok (Ty.Function ps r) → ps.length ≠ args.length →
      checkExpr env (.FunCallExpr callee args) =
        .error ⟨"Type error: function called with incorrect number of arguments"⟩) ∧
    (∀ (env : Environment) (callee : Expr) (args : List Expr)
       (ps : List Ty) (r : Ty) (ts : List Ty),
      checkExpr env callee = .ok (Ty.Function ps r) → ps.length = args.length →
      checkList env args = .ok ts →
      (∀ p ∈ ts.zip ps, isSubtype p.1 p.2 = true) →
      checkExpr env (.FunCallExpr callee args) = .ok r) ∧
    (∀ (env : Environment) (callee : Expr) (args : List Expr)
       (ps : List Ty) (r : Ty) (ts : List Ty),
      checkExpr env callee = .ok (Ty.Function ps r) → ps.length = args.length →
      checkList env args = .ok ts →
      ¬(∀ p ∈ ts.zip ps, isSubtype p.1 p.2 = true) →
      checkExpr env (.FunCallExpr callee args) =
        .error ⟨"Type error: function argument type mismatch"⟩) := by
  refine ⟨?_, ?_, ?_, ?_, ?_⟩
  · intro env callee args C h1 h2
    have hC := kind_eq_any h2
    subst hC
    simp [checkExpr, h1]
  · intro env callee args C h1 h2 h3
    cases C <;> simp_all [checkExpr]
  · intro env callee args ps r h1 h2
    simp [checkExpr, h1, h2]
  · intro env callee args ps r ts h1 h2 h3 h4
    have hall : ((ts.zip ps).all (fun p => isSubtype p.1 p.2)) = true :=
      List.all_eq_true.mpr h4
    simp [checkExpr, h1, h2, h3, hall]
  · intro env callee args ps r ts h1 h2 h3 h4
    have hall : ((ts.zip ps).all (fun p => isSubtype p.1 p.2)) = false := by
      cases hb : (ts.zip ps).all (fun p => isSubtype p.1 p.2) with
      | false => rfl
      | true => exact absurd (List.all_eq_true.mp hb) h4
    simp [checkExpr, h1, h2, h3, hall]

/-- Witness for funcall_checking at concrete inputs: a well-typed call
to a declared function, and a call through an Any callee with arguments
that would not match any signature. -/
theorem funcall_checking_witness :
    checkExpr [[("f", Ty.Function [Ty.Number] Ty.String)]]
      (.FunCallExpr (.VarExpr "f") [.NumberExpr 1]) = .ok Ty.String ∧
    checkExpr [] (.FunCallExpr (.VarExpr "g") [.StringExpr "a"]) = .ok Ty.Any := by
  constructor
  · exact funcall_checking.2.2.2.1 [[("f", Ty.Function [Ty.Number] Ty.String)]]
      (.VarExpr "f") [.NumberExpr 1] [Ty.Number] Ty.String [Ty.Number]
      (by simp [checkExpr, Environment.lookup, mapFind])
      rfl
      (by simp [checkList, checkExpr])
      (by
        intro p hp
        simp only [List.zip, List.zipWith, List.mem_singleton] at hp
        subst hp
        rw [isSubtype.eq_def]
        simp [isSameType])
  · exact funcall_checking.1 [] (.VarExpr "g") [.StringExpr "a"] Ty.Any
      (by simp [checkExpr, Environment.lookup, mapFind]) rfl

theorem allIn_of_forall (l1 l2 : List Ty) (h : ∀ a ∈ l1, memberIn a l2 = true) :
    allIn l1 l2 = true := by
  rw [allIn_eq_all, List.all_eq_true]
  exact h

theorem fieldsIn_of_forall (fs gs : List (String × Ty)) (h : ∀ f ∈ fs, fieldIn f gs = true) :
    fieldsIn fs gs = true := by
  rw [fieldsIn_eq_all, List.all_eq_true]
  exact h

mutual

/-- Structural equality is reflexive (the pointer fast path of the C++
makes this immediate there; the embedding proves it structurally). -/
theorem isSameType_refl : ∀ t : Ty, isSameType t t = true
  | .Number => by simp [isSameType]
  | .String => by simp [isSameType]
  | .Boolean => by simp [isSameType]
  | .Nil => by simp [isSameType]
  | .Unknown => by simp [isSameType]
  | .Any => by simp [isSameType]
  | .Array e => by
    have h := isSameType_refl e
    simp [isSameType, h]
  | .Function ps r => by
    have h1 := listSame_refl ps
    have h2 := isSameType_refl r
    simp [isSameType, h1, h2]
  | .Union ms => by
    have h : ∀ a ∈ ms, memberIn a ms = true := fun a ha => by
      rw [memberIn_eq_any]
      exact List.any_eq_true.mpr ⟨a, ha, isSameType_refl a⟩
    simp [isSameType, allIn_of_forall ms ms h]
  | .Table fs => by
    have h : ∀ f ∈ fs, fieldIn f fs = true := fun f hf => by
      rw [fieldIn_eq_any]
      exact List.any_eq_true.mpr ⟨f, hf, by simp [isSameType_refl f.2]⟩
    simp [isSameType, fieldsIn_of_forall fs fs h]
  | .Record k v => by
    have h1 := isSameType_refl k
    have h2 := isSameType_refl v
    simp [isSameType, h1, h2]
termination_by t => sizeOf t
decreasing_by
  all_goals simp_wf
  all_goals try omega
  all_goals
    first
      | (have hlt := List.sizeOf_lt_of_mem ha
         omega)
      | (have hlt := List.sizeOf_lt_of_mem hf
         obtain ⟨n2, t2⟩ := f
         simp_all
         omega)

theorem listSame_refl : ∀ l : List Ty, listSame l l = true
  | [] => by simp [listSame]
  | a :: as => by
    have h1 := isSameType_refl a
    have h2 := listSame_refl as
    simp [listSame, h1, h2]
termination_by l => sizeOf l

end

theorem foldl_addDistinct_pairwise (ts : List Ty) :
    ∀ acc : List Ty, acc.Pairwise (fun u v => isSameType u v = false) →
    (ts.foldl addDistinct acc).Pairwise (fun u v => isSameType u v = false) := by
  induction ts with
  | nil =>
    intro acc h
    exact h
  | cons t ts ih =>
    intro acc h
    simp only [List.foldl_cons]
    apply ih
    unfold addDistinct
    split
    · exact h
    · rename_i hany
      rw [List.pairwise_append]
      refine ⟨h, List.pairwise_singleton _ _, ?_⟩
      intro u hu v hv
      simp only [List.mem_singleton] at hv
      subst hv
      simp only [List.any_eq_true, not_exists] at hany
      cases hb : isSameType u v with
      | false => rfl
      | true => exact absurd ⟨hu, hb⟩ (hany u)

theorem foldl_addDistinct_subset (ts : List Ty) :
    ∀ (acc : List Ty) (u : Ty), u ∈ ts.foldl addDistinct acc → u ∈ acc ∨ u ∈ ts := by
  induction ts with
  | nil =>
    intro acc u h
    exact Or.inl h
  | cons t ts ih =>
    intro acc u h
    simp only [List.foldl_cons] at h
    rcases ih (addDistinct acc t) u h with h1 | h1
    · unfold addDistinct at h1
      split at h1
      · exact Or.inl h1
      · rcases List.mem_append.mp h1 with h2 | h2
        · exact Or.inl h2
        · simp only [List.mem_singleton] at h2
          subst h2
          exact Or.inr (List.mem_cons_self _ _)
    · exact Or.inr (List.mem_cons_of_mem _ h1)

theorem foldl_addDistinct_mono (ts : List Ty) :
    ∀ (acc : List Ty) (v : Ty), v ∈ acc → v ∈ ts.foldl addDistinct acc := by
  induction ts with
  | nil =>
    intro acc v h
    exact h
  | cons t ts ih =>
    intro acc v h
    simp only [List.foldl_cons]
    apply ih
    unfold addDistinct
    split
    · exact h
    · exact List.mem_append_left _ h

theorem foldl_addDistinct_complete (ts : List Ty) :
    ∀ (acc : List Ty) (u : Ty), u ∈ ts →
    ∃ v ∈ ts.foldl addDistinct acc, isSameType v u = true := by
  induction ts with
  | nil =>
    intro acc u h
    simp at h
  | cons t ts ih =>
    intro acc u h
    simp only [List.foldl_cons]
    rcases List.mem_cons.mp h with h1 | h1
    · subst h1
      have hex : ∃ v ∈ addDistinct acc u, isSameType v u = true := by
        unfold addDistinct
        split
        · rename_i hany
          simp only [List.any_eq_true] at hany
          obtain ⟨v, hv, hs⟩ := hany
          exact ⟨v, hv, hs⟩
        · exact ⟨u, List.mem_append_right _ (List.mem_singleton_self _), isSameType_refl u⟩
      obtain ⟨v, hv, hs⟩ := hex
      exact ⟨v, foldl_addDistinct_mono ts (addDistinct acc u) v hv, hs⟩
    · exact ih (addDistinct acc t) u h1

mutual

/-- Every type produced by the recursive flattening has a kind other
than Union. -/
theorem flattenMembers_no_union : ∀ t : Ty, ∀ u ∈ flattenMembers t, u.kind ≠ TypeKind.Union
  | .Number => by simp [flattenMembers]
  | .String => by simp [flattenMembers]
  | .Boolean => by simp [flattenMembers]
  | .Nil => by simp [flattenMembers]
  | .Unknown => by simp [flattenMembers]
  | .Any => by simp [flattenMembers]
  | .Array e => by simp [flattenMembers]
  | .Table fs => by simp [flattenMembers]
  | .Record k v => by simp [flattenMembers]
  | .Function ps r => by simp [flattenMembers]
  | .Union ms => by
    intro u hu
    rw [show flattenMembers (Ty.Union ms) = flattenAll ms from by simp [flattenMembers]] at hu
    exact flattenAll_no_union ms u hu
termination_by t => sizeOf t

theorem flattenAll_no_union : ∀ ts : List Ty, ∀ u ∈ flattenAll ts, u.kind ≠ TypeKind.Union
  | [] => by simp [flattenAll]
  | t :: ts => by
    intro u hu
    rw [show flattenAll (t :: ts) = flattenMembers t ++ flattenAll ts from by
      simp [flattenAll]] at hu
    rcases List.mem_append.mp hu with h | h
    · exact flattenMembers_no_union t u h
    · exact flattenAll_no_union ts u h
termination_by l => sizeOf l

end

theorem isSameType_with_any {v : Ty} (h : isSameType v Ty.Any = true) : v = Ty.Any := by
  cases v <;> simp_all [isSameType]

/-- C3 (settled against the spec-modelled unifyTypes): on a non-empty
sequence whose elements are all pairwise structurally equal the result
is the shared head type; otherwise the result collapses to Any when Any
occurs among the flattened inputs, and is otherwise a Union of the
structurally distinct flattened inputs: its member list is pairwise
structurally distinct, contains no Union member, and covers every
flattened input up to structural equality.  Consequently unifying
Number, String, Number is structurally equal to unifying String,
Number. -/
theorem unifyTypes_spec :
    (∀ (t : Ty) (ts : List Ty),
      (∀ u ∈ t :: ts, ∀ v ∈ t :: ts, isSameType u v = true) →
      unifyTypes (t :: ts) = t) ∧
    (∀ (t : Ty) (ts : List Ty), ts.all (fun u => isSameType t u) = false →
      (((flattenAll (t :: ts)).any (fun u => u.kind == TypeKind.Any) = true →
          unifyTypes (t :: ts) = Ty.Any) ∧
       ((flattenAll (t :: ts)).any (fun u => u.kind == TypeKind.Any) = false →
          unifyTypes (t :: ts) = Ty.Union (distinctTypes (flattenAll (t :: ts))) ∧
          (distinctTypes (flattenAll (t :: ts))).Pairwise
            (fun u v => isSameType u v = false) ∧
          (∀ u ∈ distinctTypes (flattenAll (t :: ts)), u.kind ≠ TypeKind.Union) ∧
          (∀ u ∈ flattenAll (t :: ts),
            ∃ v ∈ distinctTypes (flattenAll (t :: ts)), isSameType v u = true)))) ∧
    isSameType (unifyTypes [Ty.Number, Ty.String, Ty.Number])
               (unifyTypes [Ty.String, Ty.Number]) = true := by
  refine ⟨?_, ?_, by
    simp [unifyTypes, isSameType, flattenAll, flattenMembers, distinctTypes, addDistinct,
      createUnionType, allIn, memberIn]⟩
  · intro t ts h
    have hall : ts.all (fun u => isSameType t u) = true :=
      List.all_eq_true.mpr fun u hu =>
        h t (List.mem_cons_self t ts) u (List.mem_cons_of_mem t hu)
    simp [unifyTypes, hall]
  · intro t ts hall
    have hunify : unifyTypes (t :: ts) =
        createUnionType (distinctTypes (flattenAll (t :: ts))) := by
      simp [unifyTypes, hall]
    have hsubset : ∀ u ∈ distinctTypes (flattenAll (t :: ts)), u ∈ flattenAll (t :: ts) := by
      intro u hu
      rcases foldl_addDistinct_subset (flattenAll (t :: ts)) [] u hu with h1 | h1
      · simp at h1
      · exact h1
    constructor
    · intro hany
      simp only [List.any_eq_true, beq_iff_eq] at hany
      obtain ⟨u, hu, hk⟩ := hany
      have hueq := kind_eq_any hk
      subst hueq
      obtain ⟨v, hv, hs⟩ :=
        foldl_addDistinct_complete (flattenAll (t :: ts)) [] Ty.Any hu
      have hveq := isSameType_with_any hs
      subst hveq
      have hcond : (distinctTypes (flattenAll (t :: ts))).any
          (fun u => u.kind == TypeKind.Any) = true := by
        simp only [List.any_eq_true, beq_iff_eq]
        exact ⟨Ty.Any, hv, rfl⟩
      rw [hunify]
      simp [createUnionType, hcond]
    · intro hnone
      have hcond : (distinctTypes (flattenAll (t :: ts))).any
          (fun u => u.kind == TypeKind.Any) = false := by
        cases hb : (distinctTypes (flattenAll (t :: ts))).any
            (fun u => u.kind == TypeKind.Any) with
        | false => rfl
        | true =>
          simp only [List.any_eq_true, beq_iff_eq] at hb
          obtain ⟨u, hu, hk⟩ := hb
          have : (flattenAll (t :: ts)).any (fun u => u.kind == TypeKind.Any) = true := by
            simp only [List.any_eq_true, beq_iff_eq]
            exact ⟨u, hsubset u hu, hk⟩
          rw [this] at hnone
          exact absurd hnone (by simp)
      refine ⟨?_, ?_, ?_, ?_⟩
      · rw [hunify]
        simp [createUnionType, hcond]
      · exact foldl_addDistinct_pairwise (flattenAll (t :: ts)) [] (List.Pairwise.nil)
      · intro u hu
        exact flattenAll_no_union (t :: ts) u (hsubset u hu)
      · intro u hu
        exact foldl_addDistinct_complete (flattenAll (t :: ts)) [] u hu

/-- Witness for unifyTypes_spec at concrete inputs. -/
theorem unifyTypes_spec_witness :
    unifyTypes [Ty.Number, Ty.Number] = Ty.Number ∧
    unifyTypes [Ty.Any, Ty.String] = Ty.Any ∧
    unifyTypes [Ty.Number, Ty.String] = Ty.Union [Ty.Number, Ty.String] := by
  refine ⟨?_, ?_, ?_⟩
  · exact unifyTypes_spec.1 Ty.Number [Ty.Number] (by simp [isSameType])
  · exact (unifyTypes_spec.2.1 Ty.Any [Ty.String] (by simp [isSameType])).1
      (by simp [flattenAll, flattenMembers])
  · exact ((unifyTypes_spec.2.1 Ty.Number [Ty.String] (by simp [isSameType])).2
      (by simp [flattenAll, flattenMembers])).1.trans
      (by simp [flattenAll, flattenMembers, distinctTypes, addDistinct, isSameType])
